import Mathlib

/-!
Shallow embedding of the tower-defense simulation core
(`js/Path.js`, `js/Enemy.js`, `js/Tower.js`, `js/Projectile.js`,
`js/WaveManager.js`, `js/main.js`).

Positions are exact 3D real vectors (the JS code uses THREE.Vector3 floats);
all scalar game quantities (health, speed, gold, timers, damage) are rationals.
Heap-allocated enemy objects are modelled by an association list `Heap` keyed
by allocation id, so that weak references held by towers and projectiles can
observe an enemy object after it has been removed from the live collection
(as the JS object references do).  A thrown JS `TypeError` (reading a field
of `null`) is modelled by `Except.error ()`.
-/

namespace TowerDefense

/-- A 3D vector, mirroring `THREE.Vector3`. -/
structure Vec3 where
  x : ℝ
  y : ℝ
  z : ℝ

namespace Vec3

/-- Component-wise subtraction (`subVectors`). -/
def sub (a b : Vec3) : Vec3 := ⟨a.x - b.x, a.y - b.y, a.z - b.z⟩

/-- Component-wise addition. -/
def add (a b : Vec3) : Vec3 := ⟨a.x + b.x, a.y + b.y, a.z + b.z⟩

/-- Scalar multiple. -/
def smul (s : ℝ) (v : Vec3) : Vec3 := ⟨s * v.x, s * v.y, s * v.z⟩

/-- Squared Euclidean length. -/
def lengthSq (v : Vec3) : ℝ := v.x * v.x + v.y * v.y + v.z * v.z

/-- Euclidean length (`THREE.Vector3.length`). -/
noncomputable def length (v : Vec3) : ℝ := Real.sqrt v.lengthSq

/-- `THREE.Vector3.normalize`: divides by `length() || 1`, so the zero
vector normalizes to itself. -/
noncomputable def normalize (v : Vec3) : Vec3 :=
  smul (1 / (if v.length = 0 then 1 else v.length)) v

/-- `addScaledVector`: `p + s • v`. -/
def addScaled (p v : Vec3) (s : ℝ) : Vec3 := p.add (smul s v)

/-- `distanceToSquared`. -/
def distanceToSquared (a b : Vec3) : ℝ := (a.sub b).lengthSq

end Vec3

/-- A rendered mesh as far as the simulation core observes it: its world
position and its collision radius (the sphere-geometry radius parameter). -/
structure Mesh where
  position : Vec3
  radius : ℚ

/-- The stat block merged from defaults and an `ENEMY_CONFIGS` entry
(`Enemy.js` constructor).  The color is purely visual and not modelled. -/
structure EnemyConfig where
  health : ℚ
  speed : ℚ
  value : ℚ
  size : ℚ

/-- An enemy unit (`Enemy.js`).  `mesh = none` models both the
constructor's early return on an empty path (no mesh ever created) and a
disposed enemy (`dispose()` sets `this.mesh = null`). -/
structure Enemy where
  health : ℚ
  speed : ℚ
  value : ℚ
  currentWaypointIndex : ℕ
  waypoints : List Vec3
  mesh : Option Mesh

namespace Enemy

/-- The `Enemy` constructor: stats are set first, then the path is checked;
on an empty waypoint list the constructor returns early and no mesh is
created, otherwise the mesh is placed at the first waypoint. -/
def make (waypoints : List Vec3) (cfg : EnemyConfig) : Enemy :=
  { health := cfg.health
    speed := cfg.speed
    value := cfg.value
    currentWaypointIndex := 0
    waypoints := waypoints
    mesh :=
      match waypoints with
      | [] => none
      | w :: _ => some { position := w, radius := cfg.size } }

/-- `Enemy.isDead`: health is zero or less. -/
def isDead (e : Enemy) : Prop := e.health ≤ 0

instance (e : Enemy) : Decidable e.isDead := inferInstanceAs (Decidable (_ ≤ _))

/-- `Enemy.hasReachedEnd`: the waypoint cursor has passed the last waypoint. -/
def hasReachedEnd (e : Enemy) : Prop := e.currentWaypointIndex ≥ e.waypoints.length

instance (e : Enemy) : Decidable e.hasReachedEnd := inferInstanceAs (Decidable (_ ≥ _))

/-- `Enemy.takeDamage`: subtract, with no floor. -/
def takeDamage (e : Enemy) (amount : ℚ) : Enemy := { e with health := e.health - amount }

/-- `Enemy.dispose`: the mesh is removed (set to `null`); the remaining
stats of the object are untouched. -/
def dispose (e : Enemy) : Enemy := { e with mesh := none }

/-- `Enemy.update(deltaTime)`: advance along the path.  No-op without a mesh
or once the end is reached; otherwise either snap to the current waypoint and
advance the cursor by one, or move `speed × dt` towards it. -/
noncomputable def update (e : Enemy) (dt : ℚ) : Enemy :=
  match e.mesh with
  | none => e
  | some m =>
    if e.hasReachedEnd then e
    else
      match e.waypoints[e.currentWaypointIndex]? with
      | none => e
      | some target =>
        let direction := target.sub m.position
        let distance := direction.length
        let moveDistance : ℝ := (e.speed * dt : ℚ)
        if moveDistance ≥ distance then
          { e with
            mesh := some { m with position := target }
            currentWaypointIndex := e.currentWaypointIndex + 1 }
        else
          { e with
            mesh := some { m with position := m.position.addScaled direction.normalize moveDistance } }

end Enemy

/-- The heap of all enemy objects ever allocated, keyed by allocation id.
Entries are never deleted: a disposed enemy remains observable through weak
references exactly as a JS object outlives its removal from an array. -/
abbrev Heap := List (ℕ × Enemy)

/-- Look an enemy object up by id. -/
def heapFind : Heap → ℕ → Option Enemy
  | [], _ => none
  | (j, e) :: rest, i => if j = i then some e else heapFind rest i

/-- Overwrite the enemy object stored under an id (in-place mutation of the
referenced object). -/
def heapSet : Heap → ℕ → Enemy → Heap
  | [], _, _ => []
  | (j, e) :: rest, i, e' => if j = i then (j, e') :: rest else (j, e) :: heapSet rest i e'

/-- The fixed enemy route from `Path.js` (`this.waypoints`). -/
noncomputable def pathWaypoints : List Vec3 :=
  [⟨-15, 1/10, 0⟩, ⟨0, 1/10, 0⟩, ⟨0, 1/10, 15⟩, ⟨15, 1/10, 15⟩]

/-- Result signal of `Projectile.update`. -/
inductive ProjSignal where
  | invalidTarget
  | hitTarget
  | moving
deriving DecidableEq

/-- A homing projectile (`Projectile.js`).  `targetEnemy` is a weak
reference: the allocation id of one enemy object, or `none` for `null`. -/
structure Projectile where
  position : Vec3
  radius : ℚ
  speed : ℚ
  damage : ℚ
  targetEnemy : Option ℕ

/-- Result of one `Projectile.update` call: the (possibly moved) projectile,
the heap after any damage applied to the target, and the returned signal. -/
structure ProjResult where
  proj : Projectile
  heap : Heap
  signal : ProjSignal

namespace Projectile

/-- `Projectile.update(deltaTime)`.  A `null` target or a dead target yields
`INVALID_TARGET`; otherwise the target's mesh position is read — which
throws (modelled `Except.error ()`) when the target was disposed with its
health still positive — then the projectile either hits (damaging the
target in the heap) or homes towards the target's current position. -/
noncomputable def update (p : Projectile) (dt : ℚ) (heap : Heap) : Except Unit ProjResult :=
  match p.targetEnemy with
  | none => Except.ok ⟨p, heap, .invalidTarget⟩
  | some i =>
    match heapFind heap i with
    | none => Except.ok ⟨p, heap, .invalidTarget⟩
    | some e =>
    if e.isDead then Except.ok ⟨p, heap, .invalidTarget⟩
    else
      match e.mesh with
      | none => Except.error ()
      | some m =>
        let direction := m.position.sub p.position
        let distance := direction.length
        let moveDistance : ℝ := (p.speed * dt : ℚ)
        let hitThreshold : ℚ :=
          (if m.radius = 0 then 1/2 else m.radius) + (if p.radius = 0 then 1/10 else p.radius)
        if distance ≤ moveDistance ∨ distance ≤ (hitThreshold : ℝ) then
          Except.ok ⟨p, heapSet heap i (e.takeDamage p.damage), .hitTarget⟩
        else
          Except.ok
            ⟨{ p with position := p.position.addScaled direction.normalize moveDistance },
              heap, .moving⟩

end Projectile

/-- A tower (`Tower.js`).  `currentTarget` is a weak reference by enemy id. -/
structure Tower where
  cost : ℚ
  position : Vec3
  level : ℕ
  baseDamage : ℚ
  baseRange : ℚ
  fireRate : ℚ
  damage : ℚ
  range : ℚ
  currentTarget : Option ℕ
  fireCooldown : ℚ
  meshPosition : Vec3
  height : ℚ

namespace Tower

/-- `Tower.getUpgradeCost()`: `floor(cost * 1.8^level)`. -/
def getUpgradeCost (t : Tower) : ℤ := ⌊t.cost * (9/5 : ℚ) ^ t.level⌋

/-- `Tower.upgrade()`: increment the level and recompute the derived stats. -/
def upgrade (t : Tower) : Tower :=
  { t with
    level := t.level + 1
    damage := t.baseDamage * (6/5 : ℚ) ^ t.level
    range := t.baseRange * (11/10 : ℚ) ^ t.level }

/-- The scan loop inside `findTarget`: skip dead enemies, stop at the first
enemy whose squared distance is within `range * range` (`break`).  Reading
the mesh position of an enemy whose mesh is `null` throws. -/
noncomputable def scanTargets (t : Tower) (heap : Heap) : List ℕ → Except Unit (Option (ℕ × Enemy))
  | [] => Except.ok none
  | i :: rest =>
    match heapFind heap i with
    | none => Except.error ()
    | some e =>
      if e.isDead then t.scanTargets heap rest
      else
        match e.mesh with
        | none => Except.error ()
        | some m =>
          if t.meshPosition.distanceToSquared m.position ≤ t.range * t.range then
            Except.ok (some (i, e))
          else t.scanTargets heap rest

/-- `Tower.findTarget(enemies)`: reset the target, scan the collection in
order, then re-validate the found target (dead or out-of-range becomes
`null`). -/
noncomputable def findTarget (t : Tower) (heap : Heap) (live : List ℕ) : Except Unit Tower :=
  match t.scanTargets heap live with
  | Except.error u => Except.error u
  | Except.ok none => Except.ok { t with currentTarget := none }
  | Except.ok (some (i, e)) =>
    if e.isDead then Except.ok { t with currentTarget := none }
    else
      match e.mesh with
      | none => Except.error ()
      | some m =>
        if t.meshPosition.distanceToSquared m.position > t.range * t.range then
          Except.ok { t with currentTarget := none }
        else Except.ok { t with currentTarget := some i }

/-- The cooldown block at the top of `Tower.update`: the cooldown is
decremented by `dt` only when it is currently positive. -/
def cooldownStep (t : Tower) (dt : ℚ) : Tower :=
  if t.fireCooldown > 0 then { t with fireCooldown := t.fireCooldown - dt } else t

/-- The projectile created by `Tower.attack`: spawned slightly above the
tower mesh, speed 20, radius 0.1, damage equal to the tower's damage, aimed
at the given enemy id. -/
noncomputable def mkProjectile (t : Tower) (i : ℕ) : Projectile :=
  { position := t.meshPosition.add ⟨0, (t.height / 2 + 1/10 : ℚ), 0⟩
    radius := 1/10
    speed := 20
    damage := t.damage
    targetEnemy := some i }

/-- `Tower.update(deltaTime, enemies)`: cooldown step, target
(re)validation and acquisition, then attack when a target exists and the
cooldown has expired.  Returns the updated tower and the projectiles pushed
onto the shared array. -/
noncomputable def update (t : Tower) (dt : ℚ) (heap : Heap) (live : List ℕ) :
    Except Unit (Tower × List Projectile) := do
  let t₁ := cooldownStep t dt
  let t₂ ←
    match t₁.currentTarget with
    | none => t₁.findTarget heap live
    | some i =>
      match heapFind heap i with
      | none => t₁.findTarget heap live
      | some e =>
        if e.isDead then t₁.findTarget heap live
        else
          match e.mesh with
          | none => Except.error ()
          | some m =>
            if t₁.meshPosition.distanceToSquared m.position > t₁.range * t₁.range then
              t₁.findTarget heap live
            else Except.ok t₁
  match t₂.currentTarget with
  | none => Except.ok (t₂, [])
  | some i =>
    if t₂.fireCooldown ≤ 0 then
      match heapFind heap i with
      | none => Except.ok ({ t₂ with currentTarget := none }, [])
      | some e =>
        if e.isDead then Except.ok ({ t₂ with currentTarget := none }, [])
        else Except.ok ({ t₂ with fireCooldown := 1 / t₂.fireRate }, [t₂.mkProjectile i])
    else Except.ok (t₂, [])

end Tower

/-- One spawn group of a wave (`{ type, count, interval }`). -/
structure SpawnGroup where
  type : String
  count : ℤ
  interval : ℚ
deriving DecidableEq

/-- One wave template (`{ enemies, delay }`). -/
structure WaveConfig where
  enemies : List SpawnGroup
  delay : ℚ
deriving DecidableEq

/-- The `ENEMY_CONFIGS` table of `WaveManager.js` (color omitted). -/
def ENEMY_CONFIGS : String → Option EnemyConfig
  | "standard" => some ⟨100, 3/2, 10, 1/2⟩
  | "fast" => some ⟨50, 3, 8, 2/5⟩
  | "tough" => some ⟨250, 1, 20, 7/10⟩
  | _ => none

/-- The hard-coded `this.waveConfigs` of the `WaveManager` constructor. -/
def defaultWaveConfigs : List WaveConfig :=
  [ ⟨[⟨"standard", 5, 1⟩], 3⟩,
    ⟨[⟨"standard", 8, 4/5⟩, ⟨"fast", 3, 3/2⟩], 5⟩,
    ⟨[⟨"tough", 2, 2⟩, ⟨"standard", 10, 1/2⟩, ⟨"fast", 5, 7/10⟩], 5⟩ ]

/-- Result signal of `WaveManager.startNextWave`. -/
inductive StartResult where
  | waveActive
  | gameWon
  | waveStarted
deriving DecidableEq

/-- The non-`null` signal of `WaveManager.update`. -/
inductive UpdateSignal where
  | waveComplete
deriving DecidableEq

/-- Scheduler state (`WaveManager.js`).  The live-enemy array it shares with
the controller is passed in and out of `update` explicitly.
`currentWaveIndex` starts at `-1`. -/
structure WaveManager where
  path : List Vec3
  waveConfigs : List WaveConfig
  currentWaveIndex : ℤ
  spawnTimer : ℚ
  enemiesToSpawn : List SpawnGroup
  activeWave : Bool

/-- Result of one `WaveManager.update` call: the scheduler, the heap and the
shared live-enemy array after any spawn, the next fresh allocation id, and
the returned signal (`null` = `none`). -/
structure WMResult where
  wm : WaveManager
  heap : Heap
  live : List ℕ
  nextId : ℕ
  signal : Option UpdateSignal

namespace WaveManager

/-- `WaveManager.startNextWave()`: rejected while a wave is active; signals
game-won once the wave list is exhausted (the index increment is kept);
otherwise deep-copies the next wave's spawn groups, resets the spawn timer,
and activates the wave. -/
def startNextWave (wm : WaveManager) : WaveManager × StartResult :=
  if wm.activeWave then (wm, .waveActive)
  else
    let idx := wm.currentWaveIndex + 1
    if idx ≥ wm.waveConfigs.length then
      ({ wm with currentWaveIndex := idx }, .gameWon)
    else
      let cfg := wm.waveConfigs.getD idx.toNat ⟨[], 0⟩
      ({ wm with
          currentWaveIndex := idx
          enemiesToSpawn := cfg.enemies
          spawnTimer := 0
          activeWave := true }, .waveStarted)

/-- The wave-completion check at the end of `WaveManager.update`. -/
def finish (wm : WaveManager) (heap : Heap) (live : List ℕ) (nextId : ℕ) : WMResult :=
  if wm.enemiesToSpawn = [] ∧ live = [] then
    ⟨{ wm with activeWave := false }, heap, live, nextId, some .waveComplete⟩
  else ⟨wm, heap, live, nextId, none⟩

/-- `WaveManager.update(deltaTime)`: a no-op returning `null` when no wave
is active.  Otherwise decrement the spawn timer; when it has expired and
the queue is non-empty, spawn the front group's enemy type (an unknown type
drops the group and returns `null` early), decrement its count, and manage
the timer/queue; finally signal wave completion when both the queue and the
live-enemy array are empty. -/
noncomputable def update (wm : WaveManager) (dt : ℚ) (heap : Heap) (live : List ℕ)
    (nextId : ℕ) : WMResult :=
  if ¬ wm.activeWave then ⟨wm, heap, live, nextId, none⟩
  else
    let timer₁ := wm.spawnTimer - dt
    match wm.enemiesToSpawn with
    | [] => finish { wm with spawnTimer := timer₁ } heap live nextId
    | g :: gs =>
      if timer₁ ≤ 0 then
        match ENEMY_CONFIGS g.type with
        | none => ⟨{ wm with spawnTimer := timer₁, enemiesToSpawn := gs }, heap, live, nextId, none⟩
        | some cfg =>
          let e := Enemy.make wm.path cfg
          let heap₁ := heap ++ [(nextId, e)]
          let live₁ := live ++ [nextId]
          let count₁ := g.count - 1
          if count₁ ≤ 0 then
            let timer₂ := match gs with | g2 :: _ => g2.interval | [] => g.interval
            finish { wm with spawnTimer := timer₂, enemiesToSpawn := gs } heap₁ live₁ (nextId + 1)
          else
            finish
              { wm with
                  spawnTimer := g.interval
                  enemiesToSpawn := { g with count := count₁ } :: gs }
              heap₁ live₁ (nextId + 1)
      else finish { wm with spawnTimer := timer₁ } heap live nextId

end WaveManager

/-- The `gameStatus` values of `main.js`. -/
inductive GameStatus where
  | idle
  | waveActive
  | waveComplete
  | gameOver
  | gameWon
deriving DecidableEq

/-- The whole match state owned by `main.js`: economy, lives, status, the
scheduler, and the three live entity collections (enemies as ids into the
heap of allocated enemy objects). -/
structure GameState where
  playerGold : ℚ
  playerLives : ℤ
  currentWaveNumber : ℕ
  gameStatus : GameStatus
  waveManager : WaveManager
  towers : List Tower
  projectiles : List Projectile
  heap : Heap
  liveEnemies : List ℕ
  nextId : ℕ

/-- Step 2 of `animate`: update every tower in order against the same
live-enemy collection, accumulating the projectiles each pushes. -/
noncomputable def towersPhase (dt : ℚ) (heap : Heap) (live : List ℕ) :
    List Tower → List Projectile → Except Unit (List Tower × List Projectile)
  | [], projs => Except.ok ([], projs)
  | t :: ts, projs => do
    let (t', newPs) ← t.update dt heap live
    let (ts', projs') ← towersPhase dt heap live ts (projs ++ newPs)
    Except.ok (t' :: ts', projs')

/-- Step 3 of `animate`, on the *reversed* projectile array (the JS loop
iterates backwards for safe removal): update each projectile, drop it on a
hit or invalid-target signal, keep it while moving; damage is threaded
through the heap. -/
noncomputable def projectilesPhaseRev (dt : ℚ) :
    List Projectile → Heap → Except Unit (List Projectile × Heap)
  | [], heap => Except.ok ([], heap)
  | p :: rest, heap => do
    let r ← p.update dt heap
    match r.signal with
    | .moving => do
      let (kept, heap₂) ← projectilesPhaseRev dt rest r.heap
      Except.ok (r.proj :: kept, heap₂)
    | _ => projectilesPhaseRev dt rest r.heap

/-- Result of the per-tick enemy reap (step 4 of `animate`). -/
structure ReapResult where
  live : List ℕ
  heap : Heap
  gold : ℚ
  lives : ℤ
  isOver : Bool

/-- Step 4 of `animate`, on the *reversed* live-enemy array (the JS loop
iterates backwards): each enemy is advanced, then a dead enemy credits its
value and is disposed and removed; otherwise an arrived enemy costs a life
and is disposed and removed — unless lives drop to zero, in which case
lives are clamped to 0, the game-over flag is raised and the loop returns
immediately, leaving the triggering enemy and all not-yet-visited enemies
in place. -/
noncomputable def reapRev (dt : ℚ) : List ℕ → Heap → ℚ → ℤ → Except Unit ReapResult
  | [], heap, gold, lives => Except.ok ⟨[], heap, gold, lives, false⟩
  | i :: rest, heap, gold, lives =>
    match heapFind heap i with
    | none => Except.error ()
    | some e =>
      let e' := e.update dt
      let heap₁ := heapSet heap i e'
      if e'.isDead then
        reapRev dt rest (heapSet heap₁ i e'.dispose) (gold + e'.value) lives
      else if e'.hasReachedEnd then
        if lives - 1 ≤ 0 then Except.ok ⟨i :: rest, heap₁, gold, 0, true⟩
        else reapRev dt rest (heapSet heap₁ i e'.dispose) gold (lives - 1)
      else do
        let r ← reapRev dt rest heap₁ gold lives
        Except.ok ⟨i :: r.live, r.heap, r.gold, r.lives, r.isOver⟩

/-- One frame of the `animate` loop of `main.js` (rendering and UI calls
omitted): a no-op in the terminal states, otherwise scheduler update, tower
updates, projectile updates, and the enemy reap, in that fixed order, with
the game-over transition overriding any wave-complete transition. -/
noncomputable def animate (dt : ℚ) (s : GameState) : Except Unit GameState :=
  if s.gameStatus = .gameOver ∨ s.gameStatus = .gameWon then Except.ok s
  else do
    let w := s.waveManager.update dt s.heap s.liveEnemies s.nextId
    let status₁ := if w.signal = some .waveComplete then GameStatus.waveComplete else s.gameStatus
    let (towers₁, projs₁) ← towersPhase dt w.heap w.live s.towers s.projectiles
    let (projsR, heap₂) ← projectilesPhaseRev dt projs₁.reverse w.heap
    let r ← reapRev dt w.live.reverse heap₂ s.playerGold s.playerLives
    let status₂ := if r.isOver then GameStatus.gameOver else status₁
    Except.ok
      { s with
          playerGold := r.gold
          playerLives := r.lives
          gameStatus := status₂
          waveManager := w.wm
          towers := towers₁
          projectiles := projsR.reverse
          heap := r.heap
          liveEnemies := r.live.reverse
          nextId := w.nextId }

/-- Stated from the specification's words for `findTarget` (refinement
reference): "linear scan over the given collection in its given order; the
first non-dead enemy whose squared distance to the tower is ≤ range²
becomes the target ... If none match, target becomes none."  Ids that do
not resolve to an enemy with a mesh are skipped; they do not occur in the
live collections this is compared on. -/
noncomputable def specFirstTarget (t : Tower) (heap : Heap) : List ℕ → Option ℕ
  | [] => none
  | i :: rest =>
    match heapFind heap i with
    | none => specFirstTarget t heap rest
    | some e =>
      match e.mesh with
      | none => specFirstTarget t heap rest
      | some m =>
        if ¬ e.isDead ∧ t.meshPosition.distanceToSquared m.position ≤ t.range ^ 2 then some i
        else specFirstTarget t heap rest

/-! Concrete fixture entities, used to evaluate the definitions on explicit
inputs. -/

/-- An enemy that reached the end of the route with full health and was
disposed by the reap (mesh `null`), while a projectile still targets it. -/
noncomputable def escapedEnemy : Enemy :=
  { health := 100, speed := 3/2, value := 10, currentWaypointIndex := 4,
    waypoints := pathWaypoints, mesh := none }

/-- A projectile still holding a weak reference to `escapedEnemy` (id 0). -/
noncomputable def chasingProjectile : Projectile :=
  { position := ⟨0, 1, 0⟩, radius := 1/10, speed := 20, damage := 30, targetEnemy := some 0 }

/-- An enemy killed and disposed by the reap. -/
noncomputable def slainEnemy : Enemy :=
  { health := 0, speed := 3/2, value := 10, currentWaypointIndex := 2,
    waypoints := pathWaypoints, mesh := none }

/-- A projectile still holding a weak reference to `slainEnemy` (id 1). -/
noncomputable def staleProjectile : Projectile :=
  { position := ⟨0, 1, 0⟩, radius := 1/10, speed := 20, damage := 30, targetEnemy := some 1 }

/-- An enemy standing exactly on waypoint 1 of the route, en route to it. -/
noncomputable def movingEnemy : Enemy :=
  { health := 100, speed := 3/2, value := 10, currentWaypointIndex := 1,
    waypoints := pathWaypoints, mesh := some ⟨⟨0, 1/10, 0⟩, 1/2⟩ }

/-- An enemy that reached the last waypoint alive (health intact). -/
noncomputable def arrivedEnemy : Enemy :=
  { health := 100, speed := 3/2, value := 10, currentWaypointIndex := 4,
    waypoints := pathWaypoints, mesh := some ⟨⟨15, 1/10, 15⟩, 1/2⟩ }

/-- An enemy that is dead and has also reached the end of the route. -/
noncomputable def deadArrivedEnemy : Enemy :=
  { health := -5, speed := 3/2, value := 10, currentWaypointIndex := 4,
    waypoints := pathWaypoints, mesh := some ⟨⟨15, 1/10, 15⟩, 1/2⟩ }

/-- A dead enemy close to the fixture tower. -/
noncomputable def deadNearEnemy : Enemy :=
  { health := 0, speed := 3/2, value := 10, currentWaypointIndex := 1,
    waypoints := pathWaypoints, mesh := some ⟨⟨1, 0, 0⟩, 1/2⟩ }

/-- A live enemy within range of the fixture tower. -/
noncomputable def nearEnemy : Enemy :=
  { health := 50, speed := 3/2, value := 10, currentWaypointIndex := 1,
    waypoints := pathWaypoints, mesh := some ⟨⟨2, 0, 0⟩, 1/2⟩ }

/-- A second live enemy within range of the fixture tower. -/
noncomputable def fartherEnemy : Enemy :=
  { health := 50, speed := 3/2, value := 10, currentWaypointIndex := 1,
    waypoints := pathWaypoints, mesh := some ⟨⟨3, 0, 0⟩, 1/2⟩ }

/-- Heap of the targeting fixtures: a dead enemy first, then two live ones. -/
noncomputable def targetHeap : Heap := [(0, deadNearEnemy), (1, nearEnemy), (2, fartherEnemy)]

/-- The basic tower of `main.js` (cost 50, range 6, damage 30, fire rate
1.2), placed at the origin with an expired cooldown and no target. -/
noncomputable def basicTower : Tower :=
  { cost := 50, position := ⟨0, 0, 0⟩, level := 1, baseDamage := 30, baseRange := 6,
    fireRate := 6/5, damage := 30, range := 6, currentTarget := none, fireCooldown := 0,
    meshPosition := ⟨0, 0, 0⟩, height := 3/2 }

/-- The basic tower part-way through its cooldown. -/
noncomputable def warmTower : Tower := { basicTower with fireCooldown := 5 }

/-- A scheduler that has not been asked to start any wave yet. -/
noncomputable def freshWaveManager : WaveManager :=
  { path := pathWaypoints, waveConfigs := defaultWaveConfigs, currentWaveIndex := -1,
    spawnTimer := 0, enemiesToSpawn := [], activeWave := false }

/-- `freshWaveManager` immediately after `startNextWave()` succeeded. -/
noncomputable def startedWaveManager : WaveManager :=
  { freshWaveManager with
      currentWaveIndex := 0
      enemiesToSpawn := [⟨"standard", 5, 1⟩]
      spawnTimer := 0
      activeWave := true }

/-- An active scheduler with one spawn left and a timer that has not yet
expired. -/
noncomputable def activeWaveManager : WaveManager :=
  { path := pathWaypoints, waveConfigs := defaultWaveConfigs, currentWaveIndex := 0,
    spawnTimer := 1, enemiesToSpawn := [⟨"standard", 1, 1⟩], activeWave := true }

/-- A scheduler whose waves have all been started and completed. -/
noncomputable def idleWaveManager : WaveManager :=
  { path := pathWaypoints, waveConfigs := defaultWaveConfigs, currentWaveIndex := 0,
    spawnTimer := 0, enemiesToSpawn := [], activeWave := false }

/-- A match on its last life: one enemy (id 0) has reached the end alive,
no towers, no projectiles, the wave spawn queue exhausted. -/
noncomputable def lastLifeState : GameState :=
  { playerGold := 100, playerLives := 1, currentWaveNumber := 1, gameStatus := .waveActive,
    waveManager := idleWaveManager, towers := [], projectiles := [],
    heap := [(0, arrivedEnemy)], liveEnemies := [0], nextId := 1 }

/-- A finished match in the `GAME_OVER` state. -/
noncomputable def gameOverState : GameState :=
  { lastLifeState with gameStatus := .gameOver }

/-!  Theorems settling the claims. -/

/-- C1: evaluating `Projectile.update` at the failing input.  When the
projectile's target was destroyed after reaching the end of the route still
alive (disposed, health intact), the update call does *not* return the
Invalid signal: it fails with an error (the JS code throws a `TypeError`
reading `.position` of the `null` mesh).  The second conjunct shows the
case the code does handle: a target destroyed while dead yields the Invalid
signal and leaves every enemy untouched. -/
theorem projectile_update_on_destroyed_target :
    Projectile.update chasingProjectile (1/60) [(0, escapedEnemy)] = Except.error () ∧
    Projectile.update staleProjectile (1/60) [(0, escapedEnemy), (1, slainEnemy)] =
      Except.ok ⟨staleProjectile, [(0, escapedEnemy), (1, slainEnemy)], .invalidTarget⟩ := by
  constructor <;> rfl

/-- C8: an `Enemy` constructed from a route yields a positioned entity
(a mesh placed on the route) exactly when the route is non-empty: with a
missing/empty route, construction aborts before any mesh is created, so no
enemy object with a position on the route comes into existence. -/
theorem enemy_make_empty_route_no_mesh :
    ∀ (waypoints : List Vec3) (cfg : EnemyConfig),
      ((Enemy.make waypoints cfg).mesh = none ↔ waypoints = []) := by
  intro waypoints cfg
  cases waypoints <;> simp [Enemy.make]

/-- C4: for every non-terminal enemy, `update(dt)` compares the step
`speed × dt` against the distance to the current waypoint: when the step
covers the distance it snaps the position onto the waypoint and increments
the cursor by exactly one (the leftover step is discarded), otherwise it
moves the position by `normalize(toTarget) × step`; once the end of the
route is reached, `update` is a no-op. -/
theorem enemy_update_advance_characterization :
    ∀ (e : Enemy) (dt : ℚ),
      (e.hasReachedEnd → e.update dt = e) ∧
      (∀ (m : Mesh) (target : Vec3),
        e.mesh = some m → ¬ e.hasReachedEnd →
        e.waypoints[e.currentWaypointIndex]? = some target →
        ((((e.speed * dt : ℚ) : ℝ) ≥ (target.sub m.position).length →
            e.update dt =
              { e with
                  mesh := some { m with position := target },
                  currentWaypointIndex := e.currentWaypointIndex + 1 }) ∧
          (((e.speed * dt : ℚ) : ℝ) < (target.sub m.position).length →
            e.update dt =
              { e with mesh := some { m with position :=
                  (m.position.addScaled (target.sub m.position).normalize
                    ((e.speed * dt : ℚ) : ℝ)) } }))) := by
  intro e dt
  constructor
  · intro h
    cases hm : e.mesh <;> simp [Enemy.update, hm, h]
  · intro m target hm hend hget
    constructor <;> intro hcond <;>
      simp only [Enemy.update, hm, hget] <;>
      rw [if_neg hend]
    · rw [if_pos hcond]
    · rw [if_neg (not_le.mpr hcond)]

/-- C5: the waypoint cursor never decreases under any operation (`update`
and `takeDamage` are the only mutators), and it never exceeds the length of
the route: an in-bounds cursor stays in bounds across `update`, which also
leaves the route itself untouched. -/
theorem route_index_monotone_and_bounded :
    ∀ (e : Enemy) (dt amount : ℚ),
      e.currentWaypointIndex ≤ (e.update dt).currentWaypointIndex ∧
      (e.takeDamage amount).currentWaypointIndex = e.currentWaypointIndex ∧
      (e.update dt).waypoints = e.waypoints ∧
      (e.currentWaypointIndex ≤ e.waypoints.length →
        (e.update dt).currentWaypointIndex ≤ (e.update dt).waypoints.length) := by
  intro e dt amount
  have key :
      ((e.update dt).currentWaypointIndex = e.currentWaypointIndex ∧
        (e.update dt).waypoints = e.waypoints) ∨
      ((e.update dt).currentWaypointIndex = e.currentWaypointIndex + 1 ∧
        (e.update dt).waypoints = e.waypoints ∧
        e.currentWaypointIndex < e.waypoints.length) := by
    cases hm : e.mesh with
    | none => exact Or.inl (by simp [Enemy.update, hm])
    | some m =>
      by_cases hend : e.hasReachedEnd
      · exact Or.inl (by simp [Enemy.update, hm, hend])
      · have hlt : e.currentWaypointIndex < e.waypoints.length := by
          simpa [Enemy.hasReachedEnd] using hend
        cases hget : e.waypoints[e.currentWaypointIndex]? with
        | none => exact Or.inl (by simp [Enemy.update, hm, hend, hget])
        | some target =>
          simp only [Enemy.update, hm, hget]
          rw [if_neg hend]
          split
          · exact Or.inr ⟨rfl, rfl, hlt⟩
          · exact Or.inl ⟨rfl, rfl⟩
  rcases key with ⟨h1, h2⟩ | ⟨h1, h2, h3⟩ <;>
    refine ⟨by omega, rfl, h2, fun hb => by rw [h1, h2]; omega⟩

/-- C4 witness: an enemy standing exactly on waypoint 1 with step
`speed × dt = 3` snaps onto the waypoint and its cursor advances to 2. -/
theorem enemy_update_advance_characterization_witness :
    ¬ movingEnemy.hasReachedEnd ∧
    movingEnemy.update 2 =
      { movingEnemy with
          mesh := some ⟨⟨0, 1/10, 0⟩, 1/2⟩,
          currentWaypointIndex := 2 } := by
  have hstep : ((movingEnemy.speed * 2 : ℚ) : ℝ) ≥
      ((⟨0, 1/10, 0⟩ : Vec3).sub (⟨0, 1/10, 0⟩ : Vec3)).length := by
    have hz : ((⟨0, 1/10, 0⟩ : Vec3).sub (⟨0, 1/10, 0⟩ : Vec3)).length = 0 := by
      simp [Vec3.sub, Vec3.length, Vec3.lengthSq]
    rw [hz]
    norm_num [movingEnemy]
  refine ⟨by decide, ?_⟩
  exact ((enemy_update_advance_characterization movingEnemy 2).2
    ⟨⟨0, 1/10, 0⟩, 1/2⟩ ⟨0, 1/10, 0⟩ rfl (by decide) rfl).1 hstep

/-- C5 witness: the monotonicity and bound facts evaluated on a concrete
enemy with an in-bounds cursor. -/
theorem route_index_monotone_and_bounded_witness :
    movingEnemy.currentWaypointIndex ≤ (movingEnemy.update 2).currentWaypointIndex ∧
    (movingEnemy.takeDamage 30).currentWaypointIndex = movingEnemy.currentWaypointIndex ∧
    (movingEnemy.update 2).waypoints = movingEnemy.waypoints ∧
    movingEnemy.currentWaypointIndex ≤ movingEnemy.waypoints.length ∧
    (movingEnemy.update 2).currentWaypointIndex ≤ (movingEnemy.update 2).waypoints.length := by
  have h := route_index_monotone_and_bounded movingEnemy 2 30
  exact ⟨h.1, h.2.1, h.2.2.1, by decide, h.2.2.2 (by decide)⟩

/-- C7: while a wave is active, `startNextWave()` returns the WaveActive
rejection and leaves the scheduler state completely unchanged; in
particular, after a successful start, a second call returns WaveActive and
resets nothing. -/
theorem startNextWave_rejected_while_active :
    ∀ (wm : WaveManager),
      (wm.activeWave = true → wm.startNextWave = (wm, .waveActive)) ∧
      (∀ wm' : WaveManager, wm.startNextWave = (wm', .waveStarted) →
        wm'.startNextWave = (wm', .waveActive)) := by
  intro wm
  constructor
  · intro h
    simp [WaveManager.startNextWave, h]
  · intro wm' h
    unfold WaveManager.startNextWave at h
    by_cases ha : wm.activeWave
    · rw [if_pos ha] at h
      simp [Prod.ext_iff] at h
    · rw [if_neg ha] at h
      by_cases hidx : (wm.currentWaveIndex + 1 ≥ (wm.waveConfigs.length : ℤ))
      · rw [if_pos hidx] at h
        simp [Prod.ext_iff] at h
      · rw [if_neg hidx] at h
        simp only [Prod.mk.injEq] at h
        obtain ⟨h1, -⟩ := h
        have hact : wm'.activeWave = true := by rw [← h1]
        simp [WaveManager.startNextWave, hact]

/-- C7 witness: starting a wave on a fresh scheduler and calling
`startNextWave` again returns WaveActive without resetting the queue. -/
theorem startNextWave_rejected_while_active_witness :
    startedWaveManager.activeWave = true ∧
    freshWaveManager.startNextWave = (startedWaveManager, .waveStarted) ∧
    startedWaveManager.startNextWave = (startedWaveManager, .waveActive) := by
  refine ⟨rfl, ?hs, ?_⟩
  · rfl
  · exact (startNextWave_rejected_while_active freshWaveManager).2 startedWaveManager rfl

/-- The wave-completion check signals exactly when the post-spawn queue and
live collection are both empty, and deactivates the wave when it fires. -/
lemma finish_spec (wm' : WaveManager) (heap' : Heap) (live' : List ℕ) (n' : ℕ) :
    (((WaveManager.finish wm' heap' live' n').signal = some .waveComplete) ↔
      ((WaveManager.finish wm' heap' live' n').wm.enemiesToSpawn = [] ∧
        (WaveManager.finish wm' heap' live' n').live = [])) ∧
    (((WaveManager.finish wm' heap' live' n').signal = some .waveComplete) →
      (WaveManager.finish wm' heap' live' n').wm.activeWave = false) := by
  unfold WaveManager.finish
  split <;> simp_all

/-- C3: during an active wave whose queued enemy types are all known (as
every queue copied from the wave templates is), `update` signals
WaveComplete exactly when, after spawn handling, both the spawn queue and
the live-enemy collection are empty, and the signal deactivates the wave;
when no wave is active, `update` changes nothing and returns no signal. -/
theorem wave_update_complete_iff_queues_empty :
    ∀ (wm : WaveManager) (dt : ℚ) (heap : Heap) (live : List ℕ) (nextId : ℕ),
      (wm.activeWave = false → wm.update dt heap live nextId = ⟨wm, heap, live, nextId, none⟩) ∧
      (wm.activeWave = true →
        wm.enemiesToSpawn.all (fun g => (ENEMY_CONFIGS g.type).isSome) = true →
        (((wm.update dt heap live nextId).signal = some .waveComplete) ↔
          ((wm.update dt heap live nextId).wm.enemiesToSpawn = [] ∧
            (wm.update dt heap live nextId).live = [])) ∧
        (((wm.update dt heap live nextId).signal = some .waveComplete) →
          (wm.update dt heap live nextId).wm.activeWave = false)) := by
  intro wm dt heap live nextId
  obtain ⟨wpath, wconfigs, widx, wtimer, wqueue, wactive⟩ := wm
  constructor
  · intro h
    simp only at h
    subst h
    simp [WaveManager.update]
  · intro ha htyped
    simp only at ha htyped
    subst ha
    cases wqueue with
    | nil =>
      simp only [WaveManager.update, Bool.not_true, not_true, ite_false, if_false]
      exact finish_spec _ _ _ _
    | cons g gs =>
      by_cases ht : wtimer - dt ≤ 0
      · obtain ⟨cfg, hc⟩ : ∃ c, ENEMY_CONFIGS g.type = some c := by
          rcases h' : ENEMY_CONFIGS g.type with _ | c
          · simp [List.all_cons, h'] at htyped
          · exact ⟨c, rfl⟩
        by_cases hcnt : g.count - 1 ≤ 0
        · simp only [WaveManager.update, hc]
          simp only [not_true, ite_false, if_pos ht, if_pos hcnt]
          exact finish_spec _ _ _ _
        · simp only [WaveManager.update, hc]
          simp only [not_true, ite_false, if_pos ht, if_neg hcnt]
          exact finish_spec _ _ _ _
      · simp only [WaveManager.update]
        simp only [not_true, ite_false, if_neg ht]
        exact finish_spec _ _ _ _

/-- C3 witness: the completion equivalence evaluated on a concrete active
scheduler with one known-typed spawn left. -/
theorem wave_update_complete_iff_queues_empty_witness :
    activeWaveManager.activeWave = true ∧
    activeWaveManager.enemiesToSpawn.all (fun g => (ENEMY_CONFIGS g.type).isSome) = true ∧
    ((((activeWaveManager.update 2 [] [] 5).signal = some .waveComplete) ↔
        (((activeWaveManager.update 2 [] [] 5).wm.enemiesToSpawn = []) ∧
          ((activeWaveManager.update 2 [] [] 5).live = []))) ∧
      (((activeWaveManager.update 2 [] [] 5).signal = some .waveComplete) →
        (activeWaveManager.update 2 [] [] 5).wm.activeWave = false)) := by
  exact ⟨rfl, rfl, (wave_update_complete_iff_queues_empty activeWaveManager 2 [] [] 5).2 rfl rfl⟩

/-- The scan loop of `findTarget` agrees with the specification's
first-non-dead-in-range rule whenever every id in the collection resolves
to an enemy object that still has a mesh. -/
lemma scanTargets_spec (t : Tower) (heap : Heap) :
    ∀ live : List ℕ,
      live.all (fun i => ((heapFind heap i).bind Enemy.mesh).isSome) = true →
      (specFirstTarget t heap live = none → t.scanTargets heap live = Except.ok none) ∧
      (∀ i, specFirstTarget t heap live = some i →
        ∃ e m, heapFind heap i = some e ∧ e.mesh = some m ∧ ¬ e.isDead ∧
          t.meshPosition.distanceToSquared m.position ≤ t.range * t.range ∧
          t.scanTargets heap live = Except.ok (some (i, e))) := by
  intro live
  induction live with
  | nil =>
    intro _
    refine ⟨fun _ => rfl, fun i hi => ?_⟩
    simp [specFirstTarget] at hi
  | cons j rest ih =>
    intro hall
    obtain ⟨hhead, hrest⟩ :
        ((heapFind heap j).bind Enemy.mesh).isSome = true ∧
          rest.all (fun i => ((heapFind heap i).bind Enemy.mesh).isSome) = true := by
      simpa [List.all_cons] using hall
    obtain ⟨e, hfind⟩ : ∃ e, heapFind heap j = some e := by
      cases hf : heapFind heap j with
      | none => rw [hf] at hhead; simp at hhead
      | some e => exact ⟨e, rfl⟩
    obtain ⟨m, hmesh⟩ : ∃ m, e.mesh = some m := by
      rw [hfind] at hhead
      cases hm : e.mesh with
      | none => simp [hm] at hhead
      | some m => exact ⟨m, rfl⟩
    have ihr := ih hrest
    by_cases hd : e.isDead
    · have hspec : specFirstTarget t heap (j :: rest) = specFirstTarget t heap rest := by
        simp only [specFirstTarget, hfind, hmesh]
        rw [if_neg (fun hc => hc.1 hd)]
      have hscan : t.scanTargets heap (j :: rest) = t.scanTargets heap rest := by
        simp only [Tower.scanTargets, hfind]
        rw [if_pos hd]
      rw [hspec, hscan]; exact ihr
    · by_cases hr : t.meshPosition.distanceToSquared m.position ≤ t.range ^ 2
      · have hspec : specFirstTarget t heap (j :: rest) = some j := by
          simp only [specFirstTarget, hfind, hmesh]
          rw [if_pos ⟨hd, hr⟩]
        have hrr : t.meshPosition.distanceToSquared m.position ≤ t.range * t.range := by
          rwa [pow_two] at hr
        refine ⟨fun h0 => ?_, fun i hi => ?_⟩
        · rw [hspec] at h0; cases h0
        · rw [hspec] at hi
          injection hi with hi
          subst hi
          refine ⟨e, m, hfind, hmesh, hd, hrr, ?_⟩
          simp only [Tower.scanTargets, hfind]
          rw [if_neg hd]
          simp only [hmesh]
          rw [if_pos hrr]
      · have hspec : specFirstTarget t heap (j :: rest) = specFirstTarget t heap rest := by
          simp only [specFirstTarget, hfind, hmesh]
          rw [if_neg (fun hc => hr hc.2)]
        have hscan : t.scanTargets heap (j :: rest) = t.scanTargets heap rest := by
          simp only [Tower.scanTargets, hfind]
          rw [if_neg hd]
          simp only [hmesh]
          rw [if_neg (fun hc => hr (by rwa [← pow_two] at hc))]
        rw [hspec, hscan]; exact ihr

/-- C6: `findTarget` sets the tower's target to the first non-dead enemy of
the collection, in the collection's own order, whose squared distance is
within `range²`, and to none when no enemy qualifies — the first match, not
the nearest; being a function of the ordered collection, the result is
determined by that order. -/
theorem findTarget_first_nondead_in_range :
    ∀ (t : Tower) (heap : Heap) (live : List ℕ),
      live.all (fun i => ((heapFind heap i).bind Enemy.mesh).isSome) = true →
      t.findTarget heap live =
        Except.ok { t with currentTarget := specFirstTarget t heap live } := by
  intro t heap live hall
  have h := scanTargets_spec t heap live hall
  cases hs : specFirstTarget t heap live with
  | none =>
    simp only [Tower.findTarget, h.1 hs]
  | some i =>
    obtain ⟨e, m, hfind, hmesh, hdead, hrange, hscan⟩ := h.2 i hs
    simp only [Tower.findTarget, hscan]
    rw [if_neg hdead]
    simp only [hmesh]
    rw [if_neg (not_lt.mpr hrange)]

/-- C6 witness: on a collection holding a dead enemy followed by two live
in-range enemies, `findTarget` picks the first live one (id 1). -/
theorem findTarget_first_nondead_in_range_witness :
    ([0, 1, 2] : List ℕ).all
        (fun i => ((heapFind targetHeap i).bind Enemy.mesh).isSome) = true ∧
    basicTower.findTarget targetHeap [0, 1, 2] =
      Except.ok { basicTower with currentTarget := specFirstTarget basicTower targetHeap [0, 1, 2] } := by
  exact ⟨rfl, findTarget_first_nondead_in_range basicTower targetHeap [0, 1, 2] rfl⟩

/-- Overwriting an already-`none` target with `none` changes nothing. -/
lemma set_currentTarget_none_eq (s : Tower) (h : s.currentTarget = none) :
    ({ s with currentTarget := none } : Tower) = s := by
  cases s; simp_all

/-- C9 (amended): the per-tick cooldown step subtracts `dt` exactly when
the cooldown is currently positive, and leaves it unchanged otherwise; a
single subtraction can drive it negative (no floor); the step is
independent of the current target; and on a tower with no target and no
enemies in sight, `update` returns exactly the cooldown-stepped tower. -/
theorem cooldown_decrement_guarded :
    ∀ (t : Tower) (dt : ℚ),
      (0 < t.fireCooldown → (t.cooldownStep dt).fireCooldown = t.fireCooldown - dt) ∧
      (¬ 0 < t.fireCooldown → (t.cooldownStep dt).fireCooldown = t.fireCooldown) ∧
      (∀ o : Option ℕ,
        (({ t with currentTarget := o } : Tower).cooldownStep dt).fireCooldown =
          (t.cooldownStep dt).fireCooldown) ∧
      (0 < t.fireCooldown → t.fireCooldown < dt → (t.cooldownStep dt).fireCooldown < 0) ∧
      (∀ heap : Heap, t.currentTarget = none →
        t.update dt heap [] = Except.ok (t.cooldownStep dt, [])) := by
  intro t dt
  refine ⟨?_, ?_, ?_, ?_, ?_⟩
  · intro h
    unfold Tower.cooldownStep
    rw [if_pos h]
  · intro h
    unfold Tower.cooldownStep
    rw [if_neg h]
  · intro o
    unfold Tower.cooldownStep
    by_cases h : 0 < t.fireCooldown
    · rw [if_pos h, if_pos h]
    · rw [if_neg h, if_neg h]
  · intro h1 h2
    unfold Tower.cooldownStep
    rw [if_pos h1]
    simp only
    linarith
  · intro heap hnone
    have hct : (t.cooldownStep dt).currentTarget = none := by
      unfold Tower.cooldownStep
      split <;> simpa using hnone
    simp only [Tower.update, bind, Except.bind, hct, Tower.findTarget, Tower.scanTargets,
      set_currentTarget_none_eq _ hct]

/-- C9 counterexample: a tower with an expired cooldown (`0`) updated with
`dt = 1` keeps cooldown `0`; the claimed unconditional decrement would have
produced `-1`. -/
theorem tower_update_zero_cooldown_not_decremented :
    (basicTower.update 1 [] []).map (fun r => r.1.fireCooldown) = Except.ok 0 ∧
    (Except.ok (0 : ℚ) : Except Unit ℚ) ≠ Except.ok (basicTower.fireCooldown - 1) := by
  refine ⟨rfl, fun h => ?_⟩
  have h0 : (0 : ℚ) = basicTower.fireCooldown - 1 := Except.ok.inj h
  norm_num [basicTower] at h0

/-- C9 witness: the guarded decrement evaluated on a tower with cooldown 5
and a large `dt = 8` — the cooldown drops below zero in one step, and the
full update agrees. -/
theorem cooldown_decrement_guarded_witness :
    (0 : ℚ) < warmTower.fireCooldown ∧
    warmTower.fireCooldown < 8 ∧
    (warmTower.cooldownStep 8).fireCooldown = warmTower.fireCooldown - 8 ∧
    (warmTower.cooldownStep 8).fireCooldown < 0 ∧
    warmTower.currentTarget = none ∧
    warmTower.update 8 [] [] = Except.ok (warmTower.cooldownStep 8, []) := by
  have h := cooldown_decrement_guarded warmTower 8
  have h1 : (0 : ℚ) < warmTower.fireCooldown := by norm_num [warmTower, basicTower]
  have h2 : warmTower.fireCooldown < 8 := by norm_num [warmTower, basicTower]
  exact ⟨h1, h2, h.1 h1, h.2.2.2.1 h1 h2, rfl, h.2.2.2.2 [] rfl⟩

/-- C10: in the per-tick reap, deadness takes priority over arrival: an
enemy that is (after its advance) both dead and arrived is credited to gold
at its value, disposed, and removed from the live collection, and the
recursion continues with lives untouched. -/
theorem reap_dead_priority_over_arrival :
    ∀ (dt : ℚ) (i : ℕ) (rest : List ℕ) (heap : Heap) (gold : ℚ) (lives : ℤ) (e : Enemy),
      heapFind heap i = some e →
      (e.update dt).isDead →
      (e.update dt).hasReachedEnd →
      reapRev dt (i :: rest) heap gold lives =
        reapRev dt rest
          (heapSet (heapSet heap i (e.update dt)) i (e.update dt).dispose)
          (gold + (e.update dt).value) lives := by
  intro dt i rest heap gold lives e hfind hdead _harr
  simp only [reapRev, hfind]
  rw [if_pos hdead]

/-- C10 witness: the dead-priority step evaluated on a concrete enemy that
is both dead and arrived — gold is credited, lives are untouched. -/
theorem reap_dead_priority_over_arrival_witness :
    heapFind [(0, deadArrivedEnemy)] 0 = some deadArrivedEnemy ∧
    (deadArrivedEnemy.update 1).isDead ∧
    (deadArrivedEnemy.update 1).hasReachedEnd ∧
    reapRev 1 [0] [(0, deadArrivedEnemy)] 100 5 =
      reapRev 1 []
        (heapSet (heapSet [(0, deadArrivedEnemy)] 0 (deadArrivedEnemy.update 1)) 0
          (deadArrivedEnemy.update 1).dispose)
        (100 + (deadArrivedEnemy.update 1).value) 5 := by
  exact ⟨rfl, by decide, by decide,
    reap_dead_priority_over_arrival 1 0 [] [(0, deadArrivedEnemy)] 100 5 deadArrivedEnemy
      rfl (by decide) (by decide)⟩

/-- C2 (amended): GameOver and GameWon absorb — a tick in either state
returns the state unchanged, with no scheduler, tower, projectile, or enemy
update.  On the tick an arrival drops lives to 0, lives are clamped to 0,
the game-over flag is raised and the remaining reap work is short-circuited
— but the triggering enemy is *not* destroyed: it stays, updated and
undisposed, in the live collection, as do all not-yet-visited enemies.  The
controller then sets the status to GameOver. -/
theorem terminal_states_absorbing_and_gameover_short_circuit :
    (∀ (dt : ℚ) (s : GameState),
      (s.gameStatus = .gameOver ∨ s.gameStatus = .gameWon) → animate dt s = Except.ok s) ∧
    (∀ (dt : ℚ) (i : ℕ) (rest : List ℕ) (heap : Heap) (gold : ℚ) (lives : ℤ) (e : Enemy),
      heapFind heap i = some e →
      ¬ (e.update dt).isDead →
      (e.update dt).hasReachedEnd →
      lives - 1 ≤ 0 →
      reapRev dt (i :: rest) heap gold lives =
        Except.ok ⟨i :: rest, heapSet heap i (e.update dt), gold, 0, true⟩) ∧
    (∀ (dt : ℚ) (s : GameState) (res : ReapResult),
      s.gameStatus ≠ .gameOver → s.gameStatus ≠ .gameWon →
      s.waveManager.activeWave = false → s.towers = [] → s.projectiles = [] →
      reapRev dt s.liveEnemies.reverse s.heap s.playerGold s.playerLives = Except.ok res →
      res.isOver = true →
      animate dt s = Except.ok
        { s with
            playerGold := res.gold
            playerLives := res.lives
            gameStatus := .gameOver
            heap := res.heap
            liveEnemies := res.live.reverse }) := by
  refine ⟨?_, ?_, ?_⟩
  · intro dt s h
    unfold animate
    rw [if_pos h]
  · intro dt i rest heap gold lives e hfind hdead hre hl
    simp only [reapRev, hfind]
    rw [if_neg hdead, if_pos hre, if_pos hl]
  · intro dt s res h1 h2 hwm ht hp hreap hover
    obtain ⟨gold, lives, wnum, status, wm, towers, projs, heap, live, nid⟩ := s
    simp only at h1 h2 hwm ht hp hreap ⊢
    subst ht
    subst hp
    unfold animate
    rw [if_neg (not_or.mpr ⟨h1, h2⟩)]
    have hw : wm.update dt heap live nid = ⟨wm, heap, live, nid, none⟩ := by
      simp [WaveManager.update, hwm]
    simp only [hw, bind, Except.bind, towersPhase, List.reverse_nil, projectilesPhaseRev]
    simp only [hreap, hover]
    simp

/-- C2 witness: the three parts evaluated concretely — a GAME_OVER state
absorbs a tick unchanged, and a last-life match with one arrived-alive
enemy transitions to GameOver with lives clamped to 0. -/
theorem terminal_states_absorbing_and_gameover_short_circuit_witness :
    (gameOverState.gameStatus = .gameOver ∨ gameOverState.gameStatus = .gameWon) ∧
    animate 1 gameOverState = Except.ok gameOverState ∧
    heapFind [(0, arrivedEnemy)] 0 = some arrivedEnemy ∧
    ¬ (arrivedEnemy.update 1).isDead ∧
    (arrivedEnemy.update 1).hasReachedEnd ∧
    ((1 : ℤ) - 1 ≤ 0) ∧
    reapRev 1 [0] [(0, arrivedEnemy)] 100 1 =
      Except.ok ⟨[0], heapSet [(0, arrivedEnemy)] 0 (arrivedEnemy.update 1), 100, 0, true⟩ ∧
    animate 1 lastLifeState = Except.ok
      { lastLifeState with
          playerGold := 100
          playerLives := 0
          gameStatus := .gameOver
          heap := heapSet [(0, arrivedEnemy)] 0 (arrivedEnemy.update 1)
          liveEnemies := [0] } := by
  have h := terminal_states_absorbing_and_gameover_short_circuit
  refine ⟨Or.inl rfl, h.1 1 gameOverState (Or.inl rfl), rfl, by decide, by decide, by decide,
    ?_, ?_⟩
  · exact h.2.1 1 0 [] [(0, arrivedEnemy)] 100 1 arrivedEnemy rfl (by decide) (by decide)
      (by decide)
  · exact h.2.2 1 lastLifeState
      ⟨[0], heapSet [(0, arrivedEnemy)] 0 (arrivedEnemy.update 1), 100, 0, true⟩
      (by decide) (by decide) rfl rfl rfl
      (h.2.1 1 0 [] [(0, arrivedEnemy)] 100 1 arrivedEnemy rfl (by decide) (by decide)
        (by decide))
      rfl

/-- C2 counterexample: on the very tick that triggers GameOver, the claim
says the arriving enemy is destroyed; in the code the short-circuit returns
before the removal, so the enemy is still in the live collection (id 0) and
still has its mesh, while the status is already GameOver and lives are 0. -/
theorem gameover_tick_keeps_triggering_enemy :
    (animate 1 lastLifeState).map
        (fun s => (s.gameStatus, s.liveEnemies, s.playerLives,
          ((heapFind s.heap 0).bind Enemy.mesh).isSome)) =
      Except.ok (.gameOver, [0], 0, true) := by
  rfl

end TowerDefense
